import Mathlib

/-!
Verification of the sync coordinator / catchup manager / response handler
in `chain/client/src/state_sync_actor.rs`.

Shallow embedding conventions:
* `CryptoHash`, shard ids, heights, header payloads and part bytes are `Nat`
  (resp. `List Nat` for byte strings).
* Rust `HashMap`s are modelled as functions `Nat → Option _`; `get_mut`
  becomes lookup followed by functional update at the key.
* Fallible external collaborators (chain storage, drivers) are oracles:
  `Option`-returning fields of an environment record, `none` meaning `Err`.
* A Rust `panic!` / failed `assert!` is a `panicked` flag (or a dedicated
  outcome constructor) in the result.
* Side effects (network sends, driver notifications, log lines the spec
  cares about) are recorded in an effect trace, in program order.
-/

/-- Status of one download slot (`DownloadStatus` in
`near_client_primitives`, as used by the handler: fields `done` and
`error`). -/
structure DownloadStatus where
  done : Bool
  error : Bool
deriving DecidableEq, Repr

/-- `ShardSyncStatus`: the handler dispatches on `StateDownloadHeader` and
`StateDownloadParts`; every other status falls into the `_ => {}` arm, so
the remaining variants are collapsed into two representatives. -/
inductive ShardSyncStatus where
  | StateDownloadHeader
  | StateDownloadParts
  | StateDownloadFinalize
  | StateDone
deriving DecidableEq, Repr

/-- `ShardSyncDownload`: per-shard download tracker, a vector of download
slots plus the current status. -/
structure ShardSyncDownload where
  downloads : List DownloadStatus
  status : ShardSyncStatus
deriving DecidableEq, Repr

/-- Map from shard id to its download tracker (the per-episode
`HashMap<u64, ShardSyncDownload>`). -/
def TrackerMap : Type := Nat → Option ShardSyncDownload

/-- Map from sync hash to the tracker map of its catchup entry
(`catchup_state_syncs`; the per-entry `StateSync` driver instance carries
no data the handler reads, so only the tracker map is stored). -/
def CatchupMap : Type := Nat → Option TrackerMap

/-- Functional update of a tracker map at one shard key. -/
def setShard (m : TrackerMap) (k : Nat) (v : ShardSyncDownload) : TrackerMap :=
  fun k2 => if k2 = k then some v else m k2

/-- Functional update of the catchup map at one sync-hash key. -/
def setCatchup (m : CatchupMap) (k : Nat) (v : TrackerMap) : CatchupMap :=
  fun k2 => if k2 = k then some v else m k2

/-- `SyncStatus` (`near_client_primitives::types::SyncStatus`), restricted
to the variants this file reads or writes; `StateSync` carries the sync
hash and the shard tracker map. -/
inductive SyncStatus where
  | AwaitingPeers
  | NoSync
  | HeaderSyncing (current_height highest_height : Nat)
  | BodySync (current_height highest_height : Nat)
  | StateSyncing (sync_hash : Nat) (shards : TrackerMap)

/-! ## §4.1 step 1: `syncing_info` — the hysteretic syncing decision -/

/-- `syncing_info` (state_sync_actor.rs:496-532), given the local head
height, the current `sync_status.is_syncing()` flag, the best peer's
reported height (`none` when no peer is known), and
`config.sync_height_threshold`.  Returns `(needs_syncing, highest_height)`. -/
def syncingInfo (head_height : Nat) (is_syncing : Bool) (peer_height : Option Nat)
    (sync_height_threshold : Nat) : Bool × Nat :=
  match peer_height with
  | none => (false, 0)
  | some p =>
    if is_syncing then
      if p ≤ head_height then (false, p) else (true, p)
    else
      if p > head_height + sync_height_threshold then (true, p) else (false, p)

/-! ## §4.1.1: `find_sync_hash` — anchor-hash resolution -/

/-- The chain view consumed by `find_sync_hash`: `header_head` yields
`(prev_block_hash, last_block_hash)`, `prev_hash h` is
`get_block_header(h)?.prev_hash()`, `epoch_start h` is
`StateSync::get_epoch_start_sync_hash(chain, h)`; `none` is a chain `Err`. -/
structure FindSyncHashChain where
  header_head : Option (Nat × Nat)
  prev_hash : Nat → Option Nat
  epoch_start : Nat → Option Nat
  genesis : Nat

/-- Result of `find_sync_hash`: `Ok`, a propagated chain `Err`, or the
`assert_ne!` firing. -/
inductive FshResult where
  | ok (h : Nat)
  | err
  | panicked
deriving DecidableEq, Repr

/-- The walk-back loop of `find_sync_hash`: starting from
`header_head.prev_block_hash`, follow `prev_hash` for
`state_fetch_horizon` steps, any `Err` propagating. -/
def walkBack (c : FindSyncHashChain) : Nat → Nat → Option Nat
  | 0, h => some h
  | n + 1, h =>
    match c.prev_hash h with
    | none => none
    | some p => walkBack c n p

/-- `find_sync_hash` (state_sync_actor.rs:246-267): walk back
`state_fetch_horizon` blocks from the header head, resolve to the epoch
start; if that equals the genesis hash, re-resolve from
`header_head.last_block_hash` and `assert_ne!` the result against genesis. -/
def find_sync_hash (c : FindSyncHashChain) (state_fetch_horizon : Nat) : FshResult :=
  match c.header_head with
  | none => .err
  | some (prev_block_hash, last_block_hash) =>
    match walkBack c state_fetch_horizon prev_block_hash with
    | none => .err
    | some sync_hash =>
      match c.epoch_start sync_hash with
      | none => .err
      | some epoch_start_sync_hash =>
        if epoch_start_sync_hash = c.genesis then
          match c.epoch_start last_block_hash with
          | none => .err
          | some retried =>
            if retried = c.genesis then .panicked else .ok retried
        else .ok epoch_start_sync_hash

/-! ## Claims C5 and C6 -/

/-- C5: the syncing decision is hysteretic.  With a best peer at height
`p` and local head at `h`: when already syncing, `needs_syncing` stays
true exactly unless `p ≤ h`; when not syncing, it stays false exactly
unless `p > h + sync_height_threshold`; the returned height is `p`. -/
theorem syncingInfo_hysteresis (h p threshold : Nat) (s : Bool) :
    syncingInfo h s (some p) threshold =
      ((if s then decide (¬ p ≤ h) else decide (p > h + threshold)), p) := by
  cases s <;> simp [syncingInfo] <;> split <;> simp_all

/-- C6: whenever `find_sync_hash` returns `Ok h`, the anchor `h` is not
the genesis hash; and when the walk-back resolution landed on genesis,
the returned anchor is the one re-resolved from the header head. -/
theorem find_sync_hash_ne_genesis (c : FindSyncHashChain) (horizon h : Nat)
    (hok : find_sync_hash c horizon = .ok h) :
    h ≠ c.genesis ∧
      (∀ prev last sh, c.header_head = some (prev, last) →
        walkBack c horizon prev = some sh →
        c.epoch_start sh = some c.genesis →
        c.epoch_start last = some h) := by
  constructor
  · cases hhh : c.header_head with
    | none => simp [find_sync_hash, hhh] at hok
    | some pl =>
      obtain ⟨prev, last⟩ := pl
      cases hwb : walkBack c horizon prev with
      | none => simp [find_sync_hash, hhh, hwb] at hok
      | some sh =>
        cases hes : c.epoch_start sh with
        | none => simp [find_sync_hash, hhh, hwb, hes] at hok
        | some e =>
          by_cases heg : e = c.genesis
          · cases hr : c.epoch_start last with
            | none => simp [find_sync_hash, hhh, hwb, hes, heg, hr] at hok
            | some r =>
              by_cases hrg : r = c.genesis
              · simp [find_sync_hash, hhh, hwb, hes, heg, hr, hrg] at hok
              · simp [find_sync_hash, hhh, hwb, hes, heg, hr, hrg] at hok
                subst hok
                exact hrg
          · simp [find_sync_hash, hhh, hwb, hes, heg] at hok
            subst hok
            exact heg
  · intro prev last sh hhh hwb hes
    simp only [find_sync_hash, hhh, hwb, hes, if_pos rfl] at hok
    cases hr : c.epoch_start last with
    | none => rw [hr] at hok; cases hok
    | some r =>
      rw [hr] at hok
      by_cases hrg : r = c.genesis
      · simp [hrg] at hok
      · simp [hrg] at hok
        rw [hok]

/-! ## §4.3 Response Handler: the `StateSyncActorRequests::StateResponse` arm -/

/-- The logical payload of a state response (`ShardStateSyncResponse`):
an optional header (opaque, a `Nat`) and an optional part
`(part_id, data)`. -/
structure StateResponse where
  header : Option Nat
  part : Option (Nat × List Nat)
deriving DecidableEq, Repr

/-- `ShardStateSyncResponse::part_id()`: the id of the carried part, when
one is present. -/
def StateResponse.part_id (r : StateResponse) : Option Nat :=
  r.part.map Prod.fst

/-- Results of the chain-storage calls the handler makes:
`set_state_header shard hash header` and
`set_state_part shard hash part_id num_parts data` return `true` for `Ok`. -/
structure ChainOps where
  set_state_header : Nat → Nat → Nat → Bool
  set_state_part : Nat → Nat → Nat → Nat → List Nat → Bool

/-- Identity of a `StateSync` driver instance: the actor's own
`self.state_sync` field (`main`), or the driver stored in the catchup
entry keyed by `hash` (`catchupDriver hash`).  Both notification sites in
the source (state_sync_actor.rs:570 and :589) invoke
`self.state_sync.received_requested_part`, i.e. the `main` instance. -/
inductive DriverId where
  | main
  | catchupDriver (hash : Nat)
deriving DecidableEq, Repr

/-- Observable effects of one `StateResponse` handling, in program order. -/
inductive Effect where
  | receivedRequestedPart (d : DriverId) (part_id shard_id hash : Nat)
  | setStateHeader (shard hash header : Nat) (ok : Bool)
  | setStatePart (shard hash part_id num_parts : Nat) (data : List Nat) (ok : Bool)
  | logMissingHeader (shard hash : Nat)
  | logMaliciousPartId (part_id hash : Nat)
  | logUnexpectedHash (hash : Nat)
deriving DecidableEq, Repr

/-- `true` on the effects that call chain storage
(`set_state_header` / `set_state_part`). -/
def Effect.isStorageCall : Effect → Bool
  | .setStateHeader _ _ _ _ => true
  | .setStatePart _ _ _ _ _ _ => true
  | _ => false

/-- The actor state the response handler reads and writes: the global
sync status and the catchup map. -/
structure ActorState where
  sync_status : SyncStatus
  catchup_state_syncs : CatchupMap

/-- Where the matched download tracker lives: the main `StateSync`
phase's map, or a catchup entry's map. -/
inductive DownloadLoc where
  | mainLoc (shard : Nat)
  | catchupLoc (hash shard : Nat)
deriving DecidableEq, Repr

/-- Lines 561-602: find the download matching `(hash, shard_id)`, first in
the main `StateSync` phase (only when `hash` equals its sync hash), then
in the catchup map; at each matching episode, a part-carrying response
first notifies `self.state_sync.received_requested_part`.  Returns the
located download (if any), the notification effects, and whether the
`assert!(download.is_none())` fired (a match in both maps). -/
def resolveDownload (st : ActorState) (shard_id hash : Nat) (resp : StateResponse) :
    Option (DownloadLoc × ShardSyncDownload) × List Effect × Bool :=
  let mainRes : Option (DownloadLoc × ShardSyncDownload) × List Effect :=
    match st.sync_status with
    | .StateSyncing sync_hash shards_to_download =>
      if hash = sync_hash then
        let acks : List Effect :=
          match resp.part_id with
          | some pid => [.receivedRequestedPart .main pid shard_id hash]
          | none => []
        match shards_to_download shard_id with
        | some d => (some (.mainLoc shard_id, d), acks)
        | none => (none, acks)
      else (none, [])
    | _ => (none, [])
  match st.catchup_state_syncs hash with
  | some shards_to_download =>
    let acks : List Effect :=
      match resp.part_id with
      | some pid => [.receivedRequestedPart .main pid shard_id hash]
      | none => []
    match shards_to_download shard_id with
    | some d =>
      match mainRes.1 with
      | some _ => (mainRes.1, mainRes.2 ++ acks, true)
      | none => (some (.catchupLoc hash shard_id, d), mainRes.2 ++ acks, false)
    | none => (mainRes.1, mainRes.2 ++ acks, false)
  | none => (mainRes.1, mainRes.2, false)

/-- Lines 604-655: status dispatch on the located download.  Returns the
updated download, the effects, and whether a `Vec` index panicked (the
only possible panic; the in-range guard makes the parts path safe).
The source's early `return` on an out-of-range part index is represented
by returning with only the log effect: nothing follows the dispatch in
the handler, so the observable behavior is identical. -/
def applyToDownload (d : ShardSyncDownload) (shard_id hash : Nat)
    (resp : StateResponse) (chain : ChainOps) :
    ShardSyncDownload × List Effect × Bool :=
  match d.status with
  | .StateDownloadHeader =>
    match resp.header with
    | some header =>
      match d.downloads[0]? with
      | none => (d, [], true)
      | some s0 =>
        if s0.done then (d, [], false)
        else if chain.set_state_header shard_id hash header then
          ({ d with downloads := d.downloads.set 0 { s0 with done := true } },
            [.setStateHeader shard_id hash header true], false)
        else
          ({ d with downloads := d.downloads.set 0 { s0 with error := true } },
            [.setStateHeader shard_id hash header false], false)
    | none =>
      match d.downloads[0]? with
      | none => (d, [], true)
      | some s0 =>
        if s0.done then (d, [], false)
        else
          ({ d with downloads := d.downloads.set 0 { s0 with error := true } },
            [.logMissingHeader shard_id hash], false)
  | .StateDownloadParts =>
    match resp.part with
    | some (part_id, data) =>
      let num_parts := d.downloads.length
      if part_id ≥ num_parts then
        (d, [.logMaliciousPartId part_id hash], false)
      else
        match d.downloads[part_id]? with
        | none => (d, [], true)
        | some sp =>
          if sp.done then (d, [], false)
          else if chain.set_state_part shard_id hash part_id num_parts data then
            ({ d with downloads := d.downloads.set part_id { sp with done := true } },
              [.setStatePart shard_id hash part_id num_parts data true], false)
          else
            ({ d with downloads := d.downloads.set part_id { sp with error := true } },
              [.setStatePart shard_id hash part_id num_parts data false], false)
    | none => (d, [], false)
  | _ => (d, [], false)

/-- Write an updated download back through the location the mutable
borrow pointed at. -/
def setLoc (st : ActorState) (loc : DownloadLoc) (v : ShardSyncDownload) : ActorState :=
  match loc with
  | .mainLoc shard =>
    match st.sync_status with
    | .StateSyncing sync_hash shards =>
      { st with sync_status := .StateSyncing sync_hash (setShard shards shard v) }
    | _ => st
  | .catchupLoc hash shard =>
    match st.catchup_state_syncs hash with
    | some shards =>
      { st with catchup_state_syncs :=
          setCatchup st.catchup_state_syncs hash (setShard shards shard v) }
    | none => st

/-- Read the download tracker a location refers to. -/
def trackerAt (st : ActorState) (loc : DownloadLoc) : Option ShardSyncDownload :=
  match loc with
  | .mainLoc shard =>
    match st.sync_status with
    | .StateSyncing _ shards => shards shard
    | _ => none
  | .catchupLoc hash shard =>
    match st.catchup_state_syncs hash with
    | some shards => shards shard
    | none => none

/-- Read one download slot of the tracker at a location. -/
def slotOf (st : ActorState) (loc : DownloadLoc) (i : Nat) : Option DownloadStatus :=
  match trackerAt st loc with
  | some d => d.downloads[i]?
  | none => none

/-- Result of handling one `StateResponse` message. -/
structure HandleResult where
  state : ActorState
  effects : List Effect
  panicked : Bool

/-- The `StateSyncActorRequests::StateResponse` arm of
`Handler::handle` (state_sync_actor.rs:550-658): resolve the download,
then dispatch on its status; with no match, log and return. -/
def handleStateResponse (st : ActorState) (shard_id hash : Nat)
    (resp : StateResponse) (chain : ChainOps) : HandleResult :=
  let r := resolveDownload st shard_id hash resp
  if r.2.2 then ⟨st, r.2.1, true⟩
  else
    match r.1 with
    | none => ⟨st, r.2.1 ++ [.logUnexpectedHash hash], false⟩
    | some (loc, d) =>
      let a := applyToDownload d shard_id hash resp chain
      ⟨setLoc st loc a.1, r.2.1 ++ a.2.1, a.2.2⟩

/-! ## Handler lemmas -/

/-- Every mutation `applyToDownload` makes is guarded by `!slot.done`, so
a slot that is already `done` is returned exactly as it was. -/
theorem applyToDownload_preserves_done (d : ShardSyncDownload) (shard_id hash : Nat)
    (resp : StateResponse) (chain : ChainOps) (i : Nat) (s : DownloadStatus)
    (hi : d.downloads[i]? = some s) (hdone : s.done = true) :
    (applyToDownload d shard_id hash resp chain).1.downloads[i]? = some s := by
  unfold applyToDownload
  cases hst : d.status
  case StateDownloadFinalize => exact hi
  case StateDone => exact hi
  case StateDownloadHeader =>
    dsimp only
    cases hh : resp.header
    case none =>
      dsimp only
      cases h0 : d.downloads[0]?
      case none => exact hi
      case some s0 =>
        dsimp only
        by_cases hd0 : s0.done = true
        · rw [if_pos hd0]
          exact hi
        · rw [if_neg hd0]
          by_cases hi0 : i = 0
          · subst hi0
            rw [h0] at hi
            injection hi with he
            exact ((hd0 (he ▸ hdone)).elim)
          · dsimp only
            rw [List.getElem?_set_ne (by omega)]
            exact hi
    case some header =>
      dsimp only
      cases h0 : d.downloads[0]?
      case none => exact hi
      case some s0 =>
        dsimp only
        by_cases hd0 : s0.done = true
        · rw [if_pos hd0]
          exact hi
        · rw [if_neg hd0]
          by_cases hi0 : i = 0
          · subst hi0
            rw [h0] at hi
            injection hi with he
            exact ((hd0 (he ▸ hdone)).elim)
          · by_cases hok : chain.set_state_header shard_id hash header = true
            · rw [if_pos hok]
              dsimp only
              rw [List.getElem?_set_ne (by omega)]
              exact hi
            · rw [if_neg hok]
              dsimp only
              rw [List.getElem?_set_ne (by omega)]
              exact hi
  case StateDownloadParts =>
    dsimp only
    cases hp : resp.part
    case none => exact hi
    case some pr =>
      obtain ⟨part_id, data⟩ := pr
      dsimp only
      by_cases hrange : part_id ≥ d.downloads.length
      · rw [if_pos hrange]
        exact hi
      · rw [if_neg hrange]
        cases hpi : d.downloads[part_id]? with
        | none => exact hi
        | some sp =>
          dsimp only
          by_cases hd0 : sp.done = true
          · rw [if_pos hd0]
            exact hi
          · rw [if_neg hd0]
            by_cases hi0 : i = part_id
            · subst hi0
              rw [hpi] at hi
              injection hi with he
              exact ((hd0 (he ▸ hdone)).elim)
            · by_cases hok :
                chain.set_state_part shard_id hash part_id d.downloads.length data = true
              · rw [if_pos hok]
                dsimp only
                rw [List.getElem?_set_ne (by omega)]
                exact hi
              · rw [if_neg hok]
                dsimp only
                rw [List.getElem?_set_ne (by omega)]
                exact hi

/-- Writing a download back at the location it was read from replaces the
tracker there. -/
theorem trackerAt_setLoc_same (st : ActorState) (loc : DownloadLoc)
    (v d : ShardSyncDownload) (hex : trackerAt st loc = some d) :
    trackerAt (setLoc st loc v) loc = some v := by
  cases loc with
  | mainLoc shard =>
    cases hss : st.sync_status with
    | StateSyncing sync_hash shards =>
      simp [trackerAt, setLoc, hss, setShard]
    | AwaitingPeers => simp [trackerAt, hss] at hex
    | NoSync => simp [trackerAt, hss] at hex
    | HeaderSyncing a b => simp [trackerAt, hss] at hex
    | BodySync a b => simp [trackerAt, hss] at hex
  | catchupLoc hash shard =>
    cases hcc : st.catchup_state_syncs hash with
    | none => simp [trackerAt, hcc] at hex
    | some shards =>
      simp [trackerAt, setLoc, hcc, setCatchup, setShard]

/-- Writing a download back at one location leaves the tracker at every
other location unchanged. -/
theorem trackerAt_setLoc_other (st : ActorState) (loc0 loc : DownloadLoc)
    (v : ShardSyncDownload) (hne : loc ≠ loc0) :
    trackerAt (setLoc st loc0 v) loc = trackerAt st loc := by
  cases loc0 with
  | mainLoc shard0 =>
    cases hss : st.sync_status with
    | StateSyncing sync_hash shards =>
      cases loc with
      | mainLoc shard =>
        have hs : shard ≠ shard0 := by
          intro h; exact hne (by rw [h])
        simp [trackerAt, setLoc, hss, setShard, hs]
      | catchupLoc hash shard =>
        simp [trackerAt, setLoc, hss]
    | AwaitingPeers => simp [trackerAt, setLoc, hss]
    | NoSync => simp [trackerAt, setLoc, hss]
    | HeaderSyncing a b => simp [trackerAt, setLoc, hss]
    | BodySync a b => simp [trackerAt, setLoc, hss]
  | catchupLoc hash0 shard0 =>
    cases hcc : st.catchup_state_syncs hash0 with
    | none => simp [trackerAt, setLoc, hcc]
    | some shards0 =>
      cases loc with
      | mainLoc shard =>
        simp [trackerAt, setLoc, hcc]
      | catchupLoc hash shard =>
        by_cases hh : hash = hash0
        · subst hh
          have hs : shard ≠ shard0 := by
            intro h; exact hne (by rw [h])
          simp [trackerAt, setLoc, hcc, setCatchup, setShard, hs]
        · simp [trackerAt, setLoc, hcc, setCatchup, hh]

/-- A location returned by `resolveDownload` really holds the download it
was paired with. -/
theorem resolveDownload_sound (st : ActorState) (shard_id hash : Nat)
    (resp : StateResponse) (loc : DownloadLoc) (d : ShardSyncDownload)
    (effs : List Effect) (pan : Bool)
    (h : resolveDownload st shard_id hash resp = (some (loc, d), effs, pan)) :
    trackerAt st loc = some d := by
  unfold resolveDownload at h
  cases hcc : st.catchup_state_syncs hash with
  | some shards_to_download =>
    rw [hcc] at h
    dsimp only at h
    cases hcs : shards_to_download shard_id with
    | some dc =>
      rw [hcs] at h
      cases hss : st.sync_status with
      | StateSyncing sync_hash shards =>
        by_cases hh : hash = sync_hash
        · cases hms : shards shard_id with
          | some dm =>
            simp only [hss, if_pos hh, hms] at h
            obtain ⟨h1, -, -⟩ := Prod.mk.injEq .. ▸ h
            · injection h with h1 h2
              injection h1 with h1
              injection h1 with hl hd
              subst hl; subst hd
              simp [trackerAt, hss, hms]
          | none =>
            simp only [hss, if_pos hh, hms] at h
            injection h with h1 h2
            injection h1 with h1
            injection h1 with hl hd
            subst hl; subst hd
            simp [trackerAt, hcc, hcs]
        · simp only [hss, if_neg hh] at h
          injection h with h1 h2
          injection h1 with h1
          injection h1 with hl hd
          subst hl; subst hd
          simp [trackerAt, hcc, hcs]
      | AwaitingPeers =>
        simp only [hss] at h
        injection h with h1 h2
        injection h1 with h1
        injection h1 with hl hd
        subst hl; subst hd
        simp [trackerAt, hcc, hcs]
      | NoSync =>
        simp only [hss] at h
        injection h with h1 h2
        injection h1 with h1
        injection h1 with hl hd
        subst hl; subst hd
        simp [trackerAt, hcc, hcs]
      | HeaderSyncing a b =>
        simp only [hss] at h
        injection h with h1 h2
        injection h1 with h1
        injection h1 with hl hd
        subst hl; subst hd
        simp [trackerAt, hcc, hcs]
      | BodySync a b =>
        simp only [hss] at h
        injection h with h1 h2
        injection h1 with h1
        injection h1 with hl hd
        subst hl; subst hd
        simp [trackerAt, hcc, hcs]
    | none =>
      rw [hcs] at h
      cases hss : st.sync_status with
      | StateSyncing sync_hash shards =>
        by_cases hh : hash = sync_hash
        · cases hms : shards shard_id with
          | some dm =>
            simp only [hss, if_pos hh, hms] at h
            injection h with h1 h2
            injection h1 with h1
            injection h1 with hl hd
            subst hl; subst hd
            simp [trackerAt, hss, hms, hh]
          | none =>
            simp only [hss, if_pos hh, hms] at h
            injection h with h1 h2
            cases h1
        · simp only [hss, if_neg hh] at h
          injection h with h1 h2
          cases h1
      | AwaitingPeers => simp only [hss] at h; injection h with h1 h2; cases h1
      | NoSync => simp only [hss] at h; injection h with h1 h2; cases h1
      | HeaderSyncing a b => simp only [hss] at h; injection h with h1 h2; cases h1
      | BodySync a b => simp only [hss] at h; injection h with h1 h2; cases h1
  | none =>
    rw [hcc] at h
    dsimp only at h
    cases hss : st.sync_status with
    | StateSyncing sync_hash shards =>
      by_cases hh : hash = sync_hash
      · cases hms : shards shard_id with
        | some dm =>
          simp only [hss, if_pos hh, hms] at h
          injection h with h1 h2
          injection h1 with h1
          injection h1 with hl hd
          subst hl; subst hd
          simp [trackerAt, hss, hms, hh]
        | none =>
          simp only [hss, if_pos hh, hms] at h
          injection h with h1 h2
          cases h1
      · simp only [hss, if_neg hh] at h
        injection h with h1 h2
        cases h1
    | AwaitingPeers => simp only [hss] at h; injection h with h1 h2; cases h1
    | NoSync => simp only [hss] at h; injection h with h1 h2; cases h1
    | HeaderSyncing a b => simp only [hss] at h; injection h with h1 h2; cases h1
    | BodySync a b => simp only [hss] at h; injection h with h1 h2; cases h1

/-- Writing back an unchanged download leaves every slot of every tracker
as it was. -/
theorem slotOf_setLoc_self (st : ActorState) (loc : DownloadLoc)
    (d : ShardSyncDownload) (hex : trackerAt st loc = some d) :
    ∀ loc2 i, slotOf (setLoc st loc d) loc2 i = slotOf st loc2 i := by
  intro loc2 i
  by_cases h : loc2 = loc
  · subst h
    unfold slotOf
    rw [trackerAt_setLoc_same st loc2 d d hex, hex]
  · unfold slotOf
    rw [trackerAt_setLoc_other st loc loc2 d h]

/-- C1: processing a state-response never changes a download slot whose
`done` flag is already true (in particular it never becomes `errored`):
in every tracker, main or catchup, and at every slot index, a `done` slot
is exactly preserved — covering the header status with and without a
header payload, and the parts status at every in-range index, duplicates
and out-of-order arrivals included. -/
theorem handleStateResponse_preserves_done (st : ActorState) (shard_id hash : Nat)
    (resp : StateResponse) (chain : ChainOps) (loc : DownloadLoc) (i : Nat)
    (s : DownloadStatus) (hs : slotOf st loc i = some s) (hdone : s.done = true) :
    slotOf (handleStateResponse st shard_id hash resp chain).state loc i = some s := by
  cases hr : resolveDownload st shard_id hash resp with
  | mk dl rest =>
    obtain ⟨effs, pan⟩ := rest
    simp only [handleStateResponse, hr]
    cases pan with
    | true => simpa using hs
    | false =>
      cases dl with
      | none => simpa using hs
      | some ld =>
        obtain ⟨loc0, d⟩ := ld
        simp only [Bool.false_eq_true, if_false]
        by_cases hloc : loc = loc0
        · subst hloc
          have hex : trackerAt st loc = some d :=
            resolveDownload_sound st shard_id hash resp loc d effs false hr
          have hd : d.downloads[i]? = some s := by
            unfold slotOf at hs
            rw [hex] at hs
            exact hs
          unfold slotOf
          rw [trackerAt_setLoc_same st loc _ d hex]
          exact applyToDownload_preserves_done d shard_id hash resp chain i s hd hdone
        · unfold slotOf
          rw [trackerAt_setLoc_other st loc0 loc _ hloc]
          unfold slotOf at hs
          exact hs

/-- Witness for C1: a tracker in header status with its header slot
already done receives a late duplicate response with no header payload;
the slot stays `done`. -/
theorem handleStateResponse_preserves_done_witness :
    slotOf (handleStateResponse
        ⟨.StateSyncing 5 (fun sh => if sh = 0 then
            some ⟨[⟨true, false⟩], .StateDownloadHeader⟩ else none),
          fun _ => none⟩
        0 5 ⟨none, none⟩ ⟨fun _ _ _ => true, fun _ _ _ _ _ => true⟩).state
      (.mainLoc 0) 0 = some ⟨true, false⟩ :=
  handleStateResponse_preserves_done _ 0 5 _ _ (.mainLoc 0) 0 ⟨true, false⟩ rfl rfl

/-- When neither the main phase nor a catchup entry has a tracker for
`(hash, shard_id)`, `resolveDownload` finds nothing, does not fire the
duplicate assertion, and emits only driver notifications. -/
theorem resolveDownload_no_match (st : ActorState) (shard_id hash : Nat)
    (resp : StateResponse)
    (hmain : ∀ sync_hash shards, st.sync_status = .StateSyncing sync_hash shards →
      hash = sync_hash → shards shard_id = none)
    (hcatch : ∀ shards, st.catchup_state_syncs hash = some shards →
      shards shard_id = none) :
    (resolveDownload st shard_id hash resp).1 = none ∧
    (resolveDownload st shard_id hash resp).2.2 = false ∧
    ∀ e ∈ (resolveDownload st shard_id hash resp).2.1, e.isStorageCall = false := by
  unfold resolveDownload
  cases hcc : st.catchup_state_syncs hash with
  | some shards2 =>
    have h2 := hcatch shards2 hcc
    cases hss : st.sync_status with
    | StateSyncing sync_hash shards =>
      by_cases hh : hash = sync_hash
      · have h1 := hmain sync_hash shards hss hh
        dsimp only
        rw [if_pos hh, h1, h2]
        cases hpid : resp.part_id <;>
          simp [Effect.isStorageCall]
      · dsimp only
        rw [if_neg hh, h2]
        cases hpid : resp.part_id <;>
          simp [Effect.isStorageCall]
    | AwaitingPeers =>
      dsimp only
      rw [h2]
      cases hpid : resp.part_id <;> simp [Effect.isStorageCall]
    | NoSync =>
      dsimp only
      rw [h2]
      cases hpid : resp.part_id <;> simp [Effect.isStorageCall]
    | HeaderSyncing a b =>
      dsimp only
      rw [h2]
      cases hpid : resp.part_id <;> simp [Effect.isStorageCall]
    | BodySync a b =>
      dsimp only
      rw [h2]
      cases hpid : resp.part_id <;> simp [Effect.isStorageCall]
  | none =>
    cases hss : st.sync_status with
    | StateSyncing sync_hash shards =>
      by_cases hh : hash = sync_hash
      · have h1 := hmain sync_hash shards hss hh
        dsimp only
        rw [if_pos hh, h1]
        cases hpid : resp.part_id <;>
          simp [Effect.isStorageCall]
      · dsimp only
        rw [if_neg hh]
        simp [Effect.isStorageCall]
    | AwaitingPeers => simp [Effect.isStorageCall]
    | NoSync => simp [Effect.isStorageCall]
    | HeaderSyncing a b => simp [Effect.isStorageCall]
    | BodySync a b => simp [Effect.isStorageCall]

/-- C2: a state-response whose `(hash, shard_id)` matches no live tracker
(anchor not the main phase's and not a catchup key, or shard absent from
the matched episode's map) is a no-op: the state is returned unchanged,
no `set_state_header`/`set_state_part` call occurs, and no panic occurs —
the handler returns after logging. -/
theorem handleStateResponse_no_match_noop (st : ActorState) (shard_id hash : Nat)
    (resp : StateResponse) (chain : ChainOps)
    (hmain : ∀ sync_hash shards, st.sync_status = .StateSyncing sync_hash shards →
      hash = sync_hash → shards shard_id = none)
    (hcatch : ∀ shards, st.catchup_state_syncs hash = some shards →
      shards shard_id = none) :
    (handleStateResponse st shard_id hash resp chain).state = st ∧
    (handleStateResponse st shard_id hash resp chain).panicked = false ∧
    ∀ e ∈ (handleStateResponse st shard_id hash resp chain).effects,
      e.isStorageCall = false := by
  obtain ⟨h1, h2, h3⟩ := resolveDownload_no_match st shard_id hash resp hmain hcatch
  cases hr : resolveDownload st shard_id hash resp with
  | mk dl rest =>
    obtain ⟨effs, pan⟩ := rest
    rw [hr] at h1 h2 h3
    dsimp only at h1 h2 h3
    subst h1
    subst h2
    simp only [handleStateResponse, hr]
    refine ⟨by simp, by simp, ?_⟩
    intro e he
    simp only [Bool.false_eq_true, if_false] at he
    rw [List.mem_append] at he
    rcases he with he | he
    · exact h3 e he
    · rw [List.mem_singleton] at he
      subst he
      rfl

/-- Witness for C2: a response for an anchor that matches neither the
main phase (different hash) nor any catchup entry is discarded without
mutation or panic. -/
theorem handleStateResponse_no_match_noop_witness :
    (handleStateResponse
        ⟨.StateSyncing 5 (fun _ => none), fun _ => none⟩
        3 9 ⟨some 1, some (2, [7])⟩ ⟨fun _ _ _ => true, fun _ _ _ _ _ => true⟩).state =
      ⟨.StateSyncing 5 (fun _ => none), fun _ => none⟩ ∧
    (handleStateResponse
        ⟨.StateSyncing 5 (fun _ => none), fun _ => none⟩
        3 9 ⟨some 1, some (2, [7])⟩ ⟨fun _ _ _ => true, fun _ _ _ _ _ => true⟩).panicked =
      false :=
  have h := handleStateResponse_no_match_noop
    ⟨.StateSyncing 5 (fun _ => none), fun _ => none⟩ 3 9
    ⟨some 1, some (2, [7])⟩ ⟨fun _ _ _ => true, fun _ _ _ _ _ => true⟩
    (fun sync_hash shards hss hh => by
      injection hss with e1 e2
      rw [← e2])
    (fun shards hcc => by cases hcc)
  ⟨h.1, h.2.1⟩

/-- C7: with a matched tracker in the parts status and a response
carrying part `(part_id, data)`: if `part_id` is at least the tracker's
fixed part count (`downloads.len()`), the handler logs a
potential-malicious-peer error and returns — no `set_state_part` call, no
slot mutated anywhere, no panic; and for every in-range index the guarded
vector access cannot panic. -/
theorem handleStateResponse_part_range (st : ActorState) (shard_id hash : Nat)
    (resp : StateResponse) (chain : ChainOps) (loc : DownloadLoc)
    (d : ShardSyncDownload) (effs : List Effect) (part_id : Nat) (data : List Nat)
    (hres : resolveDownload st shard_id hash resp = (some (loc, d), effs, false))
    (hst : d.status = .StateDownloadParts)
    (hpart : resp.part = some (part_id, data)) :
    (part_id ≥ d.downloads.length →
      (handleStateResponse st shard_id hash resp chain).effects =
          effs ++ [.logMaliciousPartId part_id hash] ∧
        (handleStateResponse st shard_id hash resp chain).panicked = false ∧
        ∀ loc2 i, slotOf (handleStateResponse st shard_id hash resp chain).state loc2 i =
          slotOf st loc2 i) ∧
    (part_id < d.downloads.length →
      (handleStateResponse st shard_id hash resp chain).panicked = false) := by
  have hex : trackerAt st loc = some d :=
    resolveDownload_sound st shard_id hash resp loc d effs false hres
  constructor
  · intro hge
    have happ : applyToDownload d shard_id hash resp chain =
        (d, [.logMaliciousPartId part_id hash], false) := by
      unfold applyToDownload
      rw [hst]
      dsimp only
      rw [hpart]
      dsimp only
      rw [if_pos hge]
    refine ⟨?_, ?_, ?_⟩
    · simp [handleStateResponse, hres, happ]
    · simp [handleStateResponse, hres, happ]
    · intro loc2 i
      have hstate : (handleStateResponse st shard_id hash resp chain).state =
          setLoc st loc d := by
        simp [handleStateResponse, hres, happ]
      rw [hstate]
      exact slotOf_setLoc_self st loc d hex loc2 i
  · intro hlt
    have hpan : (applyToDownload d shard_id hash resp chain).2.2 = false := by
      unfold applyToDownload
      rw [hst]
      dsimp only
      rw [hpart]
      dsimp only
      rw [if_neg (by omega)]
      cases hpi : d.downloads[part_id]? with
      | none =>
        rw [List.getElem?_eq_getElem hlt] at hpi
        cases hpi
      | some sp =>
        dsimp only
        by_cases hd0 : sp.done = true
        · rw [if_pos hd0]
        · rw [if_neg hd0]
          by_cases hok :
            chain.set_state_part shard_id hash part_id d.downloads.length data = true
          · rw [if_pos hok]
          · rw [if_neg hok]
    simp [handleStateResponse, hres, hpan]

/-- Witness for C7: a tracker in parts status declaring one part receives
part index 999; the response is dropped with only the malicious-peer log,
no panic, and every slot unchanged — while index 0 is in bounds. -/
theorem handleStateResponse_part_range_witness :
    ((handleStateResponse
        ⟨.StateSyncing 5 (fun sh => if sh = 0 then
            some ⟨[⟨false, false⟩], .StateDownloadParts⟩ else none),
          fun _ => none⟩
        0 5 ⟨none, some (999, [1])⟩
        ⟨fun _ _ _ => true, fun _ _ _ _ _ => true⟩).effects =
      [.receivedRequestedPart .main 999 0 5, .logMaliciousPartId 999 5] ∧
      (handleStateResponse
        ⟨.StateSyncing 5 (fun sh => if sh = 0 then
            some ⟨[⟨false, false⟩], .StateDownloadParts⟩ else none),
          fun _ => none⟩
        0 5 ⟨none, some (999, [1])⟩
        ⟨fun _ _ _ => true, fun _ _ _ _ _ => true⟩).panicked = false) := by
  have h := handleStateResponse_part_range
    ⟨.StateSyncing 5 (fun sh => if sh = 0 then
        some ⟨[⟨false, false⟩], .StateDownloadParts⟩ else none),
      fun _ => none⟩
    0 5 ⟨none, some (999, [1])⟩
    ⟨fun _ _ _ => true, fun _ _ _ _ _ => true⟩
    (.mainLoc 0) ⟨[⟨false, false⟩], .StateDownloadParts⟩
    [.receivedRequestedPart .main 999 0 5] 999 [1] rfl rfl rfl
  obtain ⟨heffs, hpan, -⟩ := h.1 (by simp)
  exact ⟨heffs, hpan⟩

/-- The notification list one matching episode produces: a
`received_requested_part` call on the MAIN driver when the response
carries a part, nothing otherwise (state_sync_actor.rs:569-571, 588-590). -/
def ackList (resp : StateResponse) (shard_id hash : Nat) : List Effect :=
  match resp.part_id with
  | some pid => [.receivedRequestedPart .main pid shard_id hash]
  | none => []

/-- `true` exactly on driver-notification effects. -/
def Effect.isAck : Effect → Bool
  | .receivedRequestedPart _ _ _ _ => true
  | _ => false

/-- Elements of an `ackList` are main-driver notifications for this
response's part id. -/
theorem mem_ackList (resp : StateResponse) (shard_id hash : Nat) (e : Effect)
    (he : e ∈ ackList resp shard_id hash) :
    ∃ pid, resp.part_id = some pid ∧
      e = .receivedRequestedPart .main pid shard_id hash := by
  unfold ackList at he
  cases hp : resp.part_id with
  | none => rw [hp] at he; cases he
  | some pid =>
    rw [hp] at he
    rw [List.mem_singleton] at he
    exact ⟨pid, rfl, he⟩

/-- The notification effects of `resolveDownload`: one `ackList` per
matched episode (anchor equal to the main phase's hash, then anchor
present in the catchup map), emitted whether or not the shard's tracker
is found there. -/
theorem resolveDownload_effects (st : ActorState) (shard_id hash : Nat)
    (resp : StateResponse) :
    (resolveDownload st shard_id hash resp).2.1 =
      (match st.sync_status with
       | .StateSyncing sync_hash _ =>
         if hash = sync_hash then ackList resp shard_id hash else []
       | _ => []) ++
      (match st.catchup_state_syncs hash with
       | some _ => ackList resp shard_id hash
       | none => []) := by
  unfold resolveDownload ackList
  cases hcc : st.catchup_state_syncs hash <;>
    cases hss : st.sync_status <;>
      dsimp only <;>
        repeat' (first | rfl | (split <;> try dsimp only))

/-- The status dispatch emits storage-call and log effects only — never a
driver notification. -/
theorem applyToDownload_no_acks (d : ShardSyncDownload) (shard_id hash : Nat)
    (resp : StateResponse) (chain : ChainOps) :
    ∀ e ∈ (applyToDownload d shard_id hash resp chain).2.1, e.isAck = false := by
  unfold applyToDownload
  cases hst : d.status
  case StateDownloadFinalize => simp
  case StateDone => simp
  case StateDownloadHeader =>
    dsimp only
    cases hh : resp.header
    case none =>
      dsimp only
      cases h0 : d.downloads[0]?
      case none => simp
      case some s0 =>
        dsimp only
        by_cases hd0 : s0.done = true
        · rw [if_pos hd0]
          simp
        · rw [if_neg hd0]
          simp [Effect.isAck]
    case some header =>
      dsimp only
      cases h0 : d.downloads[0]?
      case none => simp
      case some s0 =>
        dsimp only
        by_cases hd0 : s0.done = true
        · rw [if_pos hd0]
          simp
        · rw [if_neg hd0]
          by_cases hok : chain.set_state_header shard_id hash header = true
          · rw [if_pos hok]
            simp [Effect.isAck]
          · rw [if_neg hok]
            simp [Effect.isAck]
  case StateDownloadParts =>
    dsimp only
    cases hp : resp.part
    case none => simp
    case some pr =>
      obtain ⟨part_id, data⟩ := pr
      dsimp only
      by_cases hrange : part_id ≥ d.downloads.length
      · rw [if_pos hrange]
        simp [Effect.isAck]
      · rw [if_neg hrange]
        cases hpi : d.downloads[part_id]? with
        | none => simp
        | some sp =>
          dsimp only
          by_cases hd0 : sp.done = true
          · rw [if_pos hd0]
            simp
          · rw [if_neg hd0]
            by_cases hok :
              chain.set_state_part shard_id hash part_id d.downloads.length data = true
            · rw [if_pos hok]
              simp [Effect.isAck]
            · rw [if_neg hok]
              simp [Effect.isAck]

/-- The handler's effect trace is the resolution's notifications followed
by a notification-free tail (the log line or the dispatch effects). -/
theorem handle_effects_decomp (st : ActorState) (shard_id hash : Nat)
    (resp : StateResponse) (chain : ChainOps) :
    ∃ tail, (handleStateResponse st shard_id hash resp chain).effects =
      (resolveDownload st shard_id hash resp).2.1 ++ tail ∧
      ∀ e ∈ tail, e.isAck = false := by
  cases hr : resolveDownload st shard_id hash resp with
  | mk dl rest =>
    obtain ⟨effs, pan⟩ := rest
    simp only [handleStateResponse, hr]
    cases pan with
    | true => exact ⟨[], by simp⟩
    | false =>
      cases dl with
      | none =>
        refine ⟨[.logUnexpectedHash hash], ?_, ?_⟩
        · simp
        · simp [Effect.isAck]
      | some ld =>
        obtain ⟨loc, d⟩ := ld
        refine ⟨(applyToDownload d shard_id hash resp chain).2.1, ?_, ?_⟩
        · simp
        · exact applyToDownload_no_acks d shard_id hash resp chain

/-- C9 (amended): whenever a state-response carries a part id and its
anchor hash matches the main episode or is a key of the catchup map, it
is the actor's own MAIN state-sync driver (`self.state_sync`) that is
notified via `received_requested_part` — independently of whether the
shard's tracker is found — and every notification the handler ever emits
goes to the main driver; a matched catchup entry's own driver is never
the one notified. -/
theorem handleStateResponse_ack_main_driver (st : ActorState) (shard_id hash : Nat)
    (resp : StateResponse) (chain : ChainOps) (pid : Nat)
    (hpid : resp.part_id = some pid) :
    (∀ shards, st.sync_status = .StateSyncing hash shards →
      Effect.receivedRequestedPart .main pid shard_id hash ∈
        (handleStateResponse st shard_id hash resp chain).effects) ∧
    (∀ trackers, st.catchup_state_syncs hash = some trackers →
      Effect.receivedRequestedPart .main pid shard_id hash ∈
        (handleStateResponse st shard_id hash resp chain).effects) ∧
    (∀ drv p2 s2 h2, Effect.receivedRequestedPart drv p2 s2 h2 ∈
        (handleStateResponse st shard_id hash resp chain).effects → drv = .main) := by
  obtain ⟨tail, hdec, htail⟩ := handle_effects_decomp st shard_id hash resp chain
  have heffs := resolveDownload_effects st shard_id hash resp
  refine ⟨?_, ?_, ?_⟩
  · intro shards hss
    rw [hdec, heffs, hss]
    dsimp only
    rw [if_pos rfl]
    simp [ackList, hpid]
  · intro trackers hcc
    rw [hdec, heffs, hcc]
    simp [ackList, hpid]
  · intro drv p2 s2 h2 hmem
    rw [hdec] at hmem
    rw [List.mem_append] at hmem
    rcases hmem with hmem | hmem
    · rw [heffs] at hmem
      rw [List.mem_append] at hmem
      have hack : Effect.receivedRequestedPart drv p2 s2 h2 ∈
          ackList resp shard_id hash := by
        rcases hmem with hmem | hmem
        · split at hmem <;> try cases hmem
          split at hmem
          · exact hmem
          · cases hmem
        · split at hmem
          · exact hmem
          · cases hmem
      obtain ⟨pid2, hpid2, he⟩ := mem_ackList resp shard_id hash _ hack
      injection he with h1 h2 h3 h4
    · have := htail _ hmem
      simp [Effect.isAck] at this

/-- Witness for C9 (amended): a part response matching the main episode
produces a `received_requested_part` notification on the main driver. -/
theorem handleStateResponse_ack_main_driver_witness :
    Effect.receivedRequestedPart .main 2 1 4 ∈
      (handleStateResponse ⟨.StateSyncing 4 (fun _ => none), fun _ => none⟩ 1 4
        ⟨none, some (2, [9])⟩ ⟨fun _ _ _ => true, fun _ _ _ _ _ => true⟩).effects :=
  (handleStateResponse_ack_main_driver
    ⟨.StateSyncing 4 (fun _ => none), fun _ => none⟩ 1 4
    ⟨none, some (2, [9])⟩ ⟨fun _ _ _ => true, fun _ _ _ _ _ => true⟩ 2 rfl).1
    (fun _ => none) rfl

/-- Counterexample for C9 as stated: a part response whose anchor matches
only catchup entry 7 notifies the actor's main driver; the matched
episode's own driver (`catchupDriver 7`) receives no notification — the
complete effect trace contains `receivedRequestedPart main` but no
`receivedRequestedPart (catchupDriver 7)`. -/
theorem handleStateResponse_ack_wrong_driver :
    ((handleStateResponse
        ⟨.NoSync, fun hh => if hh = 7 then
            some (fun sh => if sh = 0 then
              some ⟨[⟨false, false⟩], .StateDownloadParts⟩ else none) else none⟩
        0 7 ⟨none, some (0, [])⟩
        ⟨fun _ _ _ => true, fun _ _ _ _ _ => true⟩).effects =
      [.receivedRequestedPart .main 0 0 7, .setStatePart 0 7 0 1 [] true]) ∧
    Effect.receivedRequestedPart (.catchupDriver 7) 0 0 7 ∉
      ([.receivedRequestedPart .main 0 0 7,
        .setStatePart 0 7 0 1 [] true] : List Effect) :=
  ⟨rfl, by decide⟩

/-- Witness for C6: a concrete chain where the anchor resolves away from
genesis. -/
theorem find_sync_hash_ne_genesis_witness :
    (3 : Nat) ≠
      (⟨some (10, 11), fun x => some x, fun _ => some 3, 0⟩ :
        FindSyncHashChain).genesis :=
  (find_sync_hash_ne_genesis ⟨some (10, 11), fun x => some x, fun _ => some 3, 0⟩
    2 3 rfl).1

/-! ## §4.2 Catchup Manager: `run_catchup` / `catchup` -/

/-- `StateSyncResult` returned by a state-sync driver run. -/
inductive StateSyncResult where
  | Unchanged
  | Changed (fetch_block : Bool)
  | Completed
deriving DecidableEq, Repr

/-- Observable effects of the catchup pass and of the main sync path's
state-sync-result handling, in program order. -/
inductive SyncEffect where
  | runDriver (hash : Nat)
  | sendChallenges (cs : List Nat)
  | requestChunks (chunks : List Nat) (head_hash : Nat)
  | processAcceptedBlocks (blocks : List Nat)
  | blockRequest (hash peer : Nat)
  | blockAlreadyKnown (hash : Nat)
  | blockExistsErr (hash : Nat)
deriving DecidableEq, Repr

/-- `true` exactly on `BlockRequest` network sends. -/
def SyncEffect.isBlockRequest : SyncEffect → Bool
  | .blockRequest _ _ => true
  | _ => false

/-- Environment of one catchup pass.  `state_sync_infos` is what
`iterate_state_sync_infos` yields (the `assert_eq!` of sync hash against
`epoch_tail_hash` holds by that iterator's contract); `driver_run h tm`
is `StateSync::run` on the entry's tracker map, returning the result and
the tracker map as the driver's `&mut` access left it (`none` = `Err`,
in which case the entry keeps its pre-run map — the driver is opaque);
`catchup_blocks h` yields the collected (accepted, missing-chunk lists,
challenges) or `Err`; `header_head` is the chain's header head or `Err`. -/
structure CatchupEnv where
  state_sync_infos : List (Nat × List Nat)
  driver_run : Nat → TrackerMap → Option (StateSyncResult × TrackerMap)
  catchup_blocks : Nat → Option (List Nat × List (List Nat) × List Nat)
  header_head : Option Nat

/-- Outcome of `run_catchup`: `Ok(accepted_blocks)`, a propagated `Err`,
or the `assert!(!fetch_block)` firing. -/
inductive CatchupOutcome where
  | ok (accepted : List Nat)
  | err
  | panicked
deriving DecidableEq, Repr

/-- The loop of `run_catchup` (state_sync_actor.rs:161-235) over the
pending state-sync infos: fetch or lazily create the anchor's catchup
entry (`entry().or_insert_with` an empty map), run its driver, and
dispatch on the result — `Unchanged` and `Changed(false)` continue with
the next info, `Changed(true)` fails the assertion, `Completed` collects
the catchup-blocks outputs, sends the challenges, issues one consolidated
chunk request against the current header head, and RETURNS the accepted
blocks, ending the pass inside the loop. -/
def runCatchupLoop (env : CatchupEnv) :
    CatchupMap → List (Nat × List Nat) → List SyncEffect →
      CatchupMap × List SyncEffect × CatchupOutcome
  | m, [], effs => (m, effs, .ok [])
  | m, (sync_hash, _shards) :: rest, effs =>
    let trackers := (m sync_hash).getD (fun _ => none)
    match env.driver_run sync_hash trackers with
    | none => (setCatchup m sync_hash trackers, effs ++ [.runDriver sync_hash], .err)
    | some (res, trackers2) =>
      let m2 := setCatchup m sync_hash trackers2
      match res with
      | .Unchanged => runCatchupLoop env m2 rest (effs ++ [.runDriver sync_hash])
      | .Changed fetch_block =>
        if fetch_block then (m2, effs ++ [.runDriver sync_hash], .panicked)
        else runCatchupLoop env m2 rest (effs ++ [.runDriver sync_hash])
      | .Completed =>
        match env.catchup_blocks sync_hash with
        | none => (m2, effs ++ [.runDriver sync_hash], .err)
        | some (accepted, blocks_missing_chunks, challenges) =>
          match env.header_head with
          | none =>
            (m2, effs ++ [.runDriver sync_hash, .sendChallenges challenges], .err)
          | some hh =>
            (m2, effs ++ [.runDriver sync_hash, .sendChallenges challenges,
              .requestChunks blocks_missing_chunks.flatten hh], .ok accepted)

/-- `run_catchup` (state_sync_actor.rs:161-235). -/
def run_catchup (env : CatchupEnv) (m : CatchupMap) :
    CatchupMap × List SyncEffect × CatchupOutcome :=
  runCatchupLoop env m env.state_sync_infos []

/-- `catchup` (state_sync_actor.rs:133-158): run a pass; on `Ok` forward
the returned accepted blocks to the client actor, on `Err` just log.  The
boolean is the panic flag. -/
def catchup_pass (env : CatchupEnv) (m : CatchupMap) :
    CatchupMap × List SyncEffect × Bool :=
  match run_catchup env m with
  | (m2, effs, .ok blocks) => (m2, effs ++ [.processAcceptedBlocks blocks], false)
  | (m2, effs, .err) => (m2, effs, false)
  | (m2, effs, .panicked) => (m2, effs, true)

/-! ## Main sync path: the `Completed` and `Changed` arms of `sync` -/

/-- Environment of the main path's `Completed` arm:
`reset_heads_post_state_sync` outputs (or `Err`) and the header head
(whose failure there is an `.expect`, i.e. a panic). -/
structure SyncCompletedEnv where
  reset_heads : Option (List Nat × List (List Nat) × List Nat)
  header_head : Option Nat

/-- Outcome of one arm of the `sync` tick. -/
inductive SyncTickOutcome where
  | ok
  | err
  | panicked
deriving DecidableEq, Repr

/-- The `StateSyncResult::Completed` arm of `sync`
(state_sync_actor.rs:411-455): forward challenges, then accepted blocks,
then issue one consolidated chunk request against the current header
head, and move the phase to `BodySync{0,0}`. -/
def syncOnCompleted (env : SyncCompletedEnv) :
    List SyncEffect × SyncTickOutcome × Option SyncStatus :=
  match env.reset_heads with
  | none => ([], .err, none)
  | some (accepted, blocks_missing_chunks, challenges) =>
    match env.header_head with
    | none =>
      ([.sendChallenges challenges, .processAcceptedBlocks accepted], .panicked, none)
    | some hh =>
      ([.sendChallenges challenges, .processAcceptedBlocks accepted,
        .requestChunks blocks_missing_chunks.flatten hh], .ok,
        some (.BodySync 0 0))

/-- Environment of the main path's `Changed` arm: the best-height peer,
`get_block_header` returning `(prev_hash, header_hash)` and
`block_exists` (`none` = `Err`). -/
structure SyncChangedEnv where
  peer : Option Nat
  get_block_header : Nat → Option (Nat × Nat)
  block_exists : Nat → Option Bool

/-- `request_block_by_hash` (state_sync_actor.rs:269-281): ask the peer
only when the block is not already known; storage errors are logged. -/
def request_block_by_hash (block_exists : Nat → Option Bool) (hash peer : Nat) :
    List SyncEffect :=
  match block_exists hash with
  | some false => [.blockRequest hash peer]
  | some true => [.blockAlreadyKnown hash]
  | none => [.blockExistsErr hash]

/-- The `StateSyncResult::Changed(fetch_block)` arm of `sync`
(state_sync_actor.rs:392-410): persist the tracker map into the
`StateSync` phase; when `fetch_block` holds and a best peer and the
anchor header are available, request the header's predecessor and the
anchor itself from that peer. -/
def syncOnChanged (env : SyncChangedEnv) (sync_hash : Nat)
    (new_shard_sync : TrackerMap) (fetch_block : Bool) :
    SyncStatus × List SyncEffect :=
  (.StateSyncing sync_hash new_shard_sync,
    if fetch_block then
      match env.peer with
      | some peer =>
        match env.get_block_header sync_hash with
        | some (prev_hash, header_hash) =>
          request_block_by_hash env.block_exists prev_hash peer ++
            request_block_by_hash env.block_exists header_hash peer
        | none => []
      | none => []
    else [])

/-! ## Catchup lemmas -/

/-- The catchup loop only appends to the effect trace. -/
theorem runCatchupLoop_effects_mono (env : CatchupEnv) :
    ∀ (infos : List (Nat × List Nat)) (m : CatchupMap) (effs : List SyncEffect),
      ∃ tail, (runCatchupLoop env m infos effs).2.1 = effs ++ tail := by
  intro infos
  induction infos with
  | nil =>
    intro m effs
    exact ⟨[], by simp [runCatchupLoop]⟩
  | cons hd rest ih =>
    obtain ⟨sync_hash, shards⟩ := hd
    intro m effs
    simp only [runCatchupLoop]
    cases hdr : env.driver_run sync_hash ((m sync_hash).getD (fun _ => none)) with
    | none => exact ⟨[.runDriver sync_hash], by dsimp only⟩
    | some rt =>
      obtain ⟨res, trackers2⟩ := rt
      dsimp only
      cases res with
      | Unchanged =>
        obtain ⟨tail, ht⟩ :=
          ih (setCatchup m sync_hash trackers2) (effs ++ [.runDriver sync_hash])
        exact ⟨[SyncEffect.runDriver sync_hash] ++ tail, by rw [ht]; simp⟩
      | Changed fb =>
        cases fb with
        | true => exact ⟨[.runDriver sync_hash], by simp⟩
        | false =>
          obtain ⟨tail, ht⟩ :=
            ih (setCatchup m sync_hash trackers2) (effs ++ [.runDriver sync_hash])
          refine ⟨[SyncEffect.runDriver sync_hash] ++ tail, ?_⟩
          simp only [Bool.false_eq_true, if_false]
          rw [ht]
          simp
      | Completed =>
        cases hcb : env.catchup_blocks sync_hash with
        | none => exact ⟨[.runDriver sync_hash], by dsimp only⟩
        | some tri =>
          obtain ⟨accepted, bmc, challenges⟩ := tri
          dsimp only
          cases hhh : env.header_head with
          | none =>
            exact ⟨[.runDriver sync_hash, .sendChallenges challenges], by dsimp only⟩
          | some hh =>
            exact ⟨[.runDriver sync_hash, .sendChallenges challenges,
              .requestChunks bmc.flatten hh], by dsimp only⟩

/-- The catchup loop never removes a key from the catchup map. -/
theorem runCatchupLoop_keys_persist (env : CatchupEnv) :
    ∀ (infos : List (Nat × List Nat)) (m : CatchupMap) (effs : List SyncEffect) (h : Nat),
      (m h).isSome = true →
      (((runCatchupLoop env m infos effs).1) h).isSome = true := by
  intro infos
  induction infos with
  | nil =>
    intro m effs h hm
    simpa [runCatchupLoop] using hm
  | cons hd rest ih =>
    obtain ⟨sync_hash, shards⟩ := hd
    intro m effs h hm
    have hset : ∀ (v : TrackerMap), ((setCatchup m sync_hash v) h).isSome = true := by
      intro v
      unfold setCatchup
      by_cases hka : h = sync_hash
      · rw [if_pos hka]; rfl
      · rw [if_neg hka]; exact hm
    simp only [runCatchupLoop]
    cases hdr : env.driver_run sync_hash ((m sync_hash).getD (fun _ => none)) with
    | none => exact hset _
    | some rt =>
      obtain ⟨res, trackers2⟩ := rt
      dsimp only
      cases res with
      | Unchanged => exact ih _ _ h (hset _)
      | Changed fb =>
        cases fb with
        | true => simpa using hset _
        | false =>
          simp only [Bool.false_eq_true, if_false]
          exact ih _ _ h (hset _)
      | Completed =>
        cases hcb : env.catchup_blocks sync_hash with
        | none => exact hset _
        | some tri =>
          obtain ⟨accepted, bmc, challenges⟩ := tri
          dsimp only
          cases hhh : env.header_head with
          | none => exact hset _
          | some hh => exact hset _

/-- No effect the catchup loop appends is a block request. -/
theorem runCatchupLoop_no_block_request (env : CatchupEnv) :
    ∀ (infos : List (Nat × List Nat)) (m : CatchupMap) (effs : List SyncEffect),
      (∀ e ∈ effs, e.isBlockRequest = false) →
      ∀ e ∈ (runCatchupLoop env m infos effs).2.1, e.isBlockRequest = false := by
  intro infos
  induction infos with
  | nil =>
    intro m effs hok e he
    simp only [runCatchupLoop] at he
    exact hok e he
  | cons hd rest ih =>
    obtain ⟨sync_hash, shards⟩ := hd
    intro m effs hok
    have hok2 : ∀ e ∈ effs ++ [SyncEffect.runDriver sync_hash],
        e.isBlockRequest = false := by
      intro e he
      rw [List.mem_append] at he
      rcases he with he | he
      · exact hok e he
      · rw [List.mem_singleton] at he
        subst he
        rfl
    simp only [runCatchupLoop]
    cases hdr : env.driver_run sync_hash ((m sync_hash).getD (fun _ => none)) with
    | none => exact hok2
    | some rt =>
      obtain ⟨res, trackers2⟩ := rt
      dsimp only
      cases res with
      | Unchanged => exact ih _ _ hok2
      | Changed fb =>
        cases fb with
        | true => simpa using hok2
        | false =>
          simp only [Bool.false_eq_true, if_false]
          exact ih _ _ hok2
      | Completed =>
        cases hcb : env.catchup_blocks sync_hash with
        | none => exact hok2
        | some tri =>
          obtain ⟨accepted, bmc, challenges⟩ := tri
          dsimp only
          cases hhh : env.header_head with
          | none =>
            dsimp only
            intro e he
            rw [show effs ++ [SyncEffect.runDriver sync_hash,
                .sendChallenges challenges] =
              (effs ++ [SyncEffect.runDriver sync_hash]) ++
                [.sendChallenges challenges] by simp] at he
            rw [List.mem_append] at he
            rcases he with he | he
            · exact hok2 e he
            · rw [List.mem_singleton] at he
              subst he
              rfl
          | some hh =>
            dsimp only
            intro e he
            rw [show effs ++ [SyncEffect.runDriver sync_hash,
                .sendChallenges challenges, .requestChunks bmc.flatten hh] =
              (effs ++ [SyncEffect.runDriver sync_hash]) ++
                [.sendChallenges challenges, .requestChunks bmc.flatten hh] by simp] at he
            rw [List.mem_append] at he
            rcases he with he | he
            · exact hok2 e he
            · simp only [List.mem_cons, List.not_mem_nil, or_false] at he
              rcases he with he | he <;> (subst he; rfl)

/-- Shape of the trace when the pass returns `Ok`: either the info list
was exhausted with no completion (only driver runs appended, empty
accepted list), or one episode completed and the trace ends with that
episode's challenges followed by one consolidated chunk request. -/
theorem runCatchupLoop_ok_shape (env : CatchupEnv) :
    ∀ (infos : List (Nat × List Nat)) (m : CatchupMap) (effs : List SyncEffect)
      (m2 : CatchupMap) (effs2 : List SyncEffect) (acc : List Nat),
      runCatchupLoop env m infos effs = (m2, effs2, .ok acc) →
      (acc = [] ∧ ∃ ds : List Nat, effs2 = effs ++ ds.map SyncEffect.runDriver) ∨
      (∃ (ds : List Nat) (h hh : Nat) (missing : List (List Nat))
          (challenges : List Nat),
        env.catchup_blocks h = some (acc, missing, challenges) ∧
        env.header_head = some hh ∧
        effs2 = effs ++ ds.map SyncEffect.runDriver ++
          [.sendChallenges challenges, .requestChunks missing.flatten hh]) := by
  intro infos
  induction infos with
  | nil =>
    intro m effs m2 effs2 acc hrun
    simp only [runCatchupLoop] at hrun
    injection hrun with h1 hrest
    injection hrest with h2 h3
    injection h3 with h4
    left
    exact ⟨h4.symm, [], by rw [← h2]; simp⟩
  | cons hd rest ih =>
    obtain ⟨sync_hash, shards⟩ := hd
    intro m effs m2 effs2 acc hrun
    simp only [runCatchupLoop] at hrun
    cases hdr : env.driver_run sync_hash ((m sync_hash).getD (fun _ => none)) with
    | none =>
      rw [hdr] at hrun
      dsimp only at hrun
      injection hrun with h1 hrest
      injection hrest with h2 h3
      exact CatchupOutcome.noConfusion h3
    | some rt =>
      obtain ⟨res, trackers2⟩ := rt
      rw [hdr] at hrun
      dsimp only at hrun
      cases res with
      | Unchanged =>
        rcases ih _ _ _ _ _ hrun with ⟨hacc, ds, hds⟩ | ⟨ds, h, hh, missing, challenges, h1, h2, h3⟩
        · left
          exact ⟨hacc, sync_hash :: ds, by rw [hds]; simp⟩
        · right
          exact ⟨sync_hash :: ds, h, hh, missing, challenges, h1, h2, by rw [h3]; simp⟩
      | Changed fb =>
        cases fb with
        | true =>
          simp only [if_true] at hrun
          injection hrun with h1 hrest
          injection hrest with h2 h3
          exact CatchupOutcome.noConfusion h3
        | false =>
          simp only [Bool.false_eq_true, if_false] at hrun
          rcases ih _ _ _ _ _ hrun with ⟨hacc, ds, hds⟩ | ⟨ds, h, hh, missing, challenges, h1, h2, h3⟩
          · left
            exact ⟨hacc, sync_hash :: ds, by rw [hds]; simp⟩
          · right
            exact ⟨sync_hash :: ds, h, hh, missing, challenges, h1, h2, by rw [h3]; simp⟩
      | Completed =>
        cases hcb : env.catchup_blocks sync_hash with
        | none =>
          rw [hcb] at hrun
          dsimp only at hrun
          injection hrun with h1 hrest
          injection hrest with h2 h3
          exact CatchupOutcome.noConfusion h3
        | some tri =>
          obtain ⟨accepted, bmc, challenges⟩ := tri
          rw [hcb] at hrun
          dsimp only at hrun
          cases hhh : env.header_head with
          | none =>
            rw [hhh] at hrun
            dsimp only at hrun
            injection hrun with h1 hrest
            injection hrest with h2 h3
            exact CatchupOutcome.noConfusion h3
          | some hh =>
            rw [hhh] at hrun
            dsimp only at hrun
            injection hrun with h1 hrest
            injection hrest with h2 h3
            injection h3 with h4
            right
            refine ⟨[sync_hash], sync_hash, hh, bmc, challenges, ?_, rfl, ?_⟩
            · rw [hcb, h4]
            · rw [← h2]
              simp

/-- When every driver run continues the loop (`Unchanged` or
`Changed(false)`), every listed boundary gets its driver run. -/
theorem runCatchupLoop_services_all (env : CatchupEnv)
    (hdrv : ∀ h tm, ∃ tm2, env.driver_run h tm = some (.Unchanged, tm2) ∨
        env.driver_run h tm = some (.Changed false, tm2)) :
    ∀ (infos : List (Nat × List Nat)) (m : CatchupMap) (effs : List SyncEffect)
      (sync_hash : Nat) (shards : List Nat),
      (sync_hash, shards) ∈ infos →
      SyncEffect.runDriver sync_hash ∈ (runCatchupLoop env m infos effs).2.1 := by
  intro infos
  induction infos with
  | nil =>
    intro m effs h s hmem
    cases hmem
  | cons hd rest ih =>
    obtain ⟨h0, s0⟩ := hd
    intro m effs h s hmem
    simp only [runCatchupLoop]
    obtain ⟨tm2, hcase⟩ := hdrv h0 ((m h0).getD (fun _ => none))
    rcases List.mem_cons.mp hmem with heq | hmem2
    · injection heq with e1 e2
      subst e1
      rcases hcase with hc | hc
      · rw [hc]
        dsimp only
        obtain ⟨tail, ht⟩ := runCatchupLoop_effects_mono env rest
          (setCatchup m h tm2) (effs ++ [.runDriver h])
        rw [ht]
        simp
      · rw [hc]
        dsimp only
        simp only [Bool.false_eq_true, if_false]
        obtain ⟨tail, ht⟩ := runCatchupLoop_effects_mono env rest
          (setCatchup m h tm2) (effs ++ [.runDriver h])
        rw [ht]
        simp
    · rcases hcase with hc | hc
      · rw [hc]
        dsimp only
        exact ih _ _ h s hmem2
      · rw [hc]
        dsimp only
        simp only [Bool.false_eq_true, if_false]
        exact ih _ _ h s hmem2

/-- C8 (amended): a catchup pass services the reported epoch boundaries
in order and keeps going past `Unchanged` and `Changed(false)` driver
results, so when no entry completes (or errs, or trips the assertion)
every reported boundary is serviced in the one pass; but the pass
returns from inside the loop at the first `Completed` entry, leaving
later boundaries to a future pass. -/
theorem run_catchup_services_all (env : CatchupEnv) (m : CatchupMap)
    (hdrv : ∀ h tm, ∃ tm2, env.driver_run h tm = some (.Unchanged, tm2) ∨
        env.driver_run h tm = some (.Changed false, tm2)) :
    ∀ sync_hash shards, (sync_hash, shards) ∈ env.state_sync_infos →
      SyncEffect.runDriver sync_hash ∈ (catchup_pass env m).2.1 := by
  intro h s hmem
  have hmem2 := runCatchupLoop_services_all env hdrv env.state_sync_infos m [] h s hmem
  unfold catchup_pass run_catchup
  cases hr : runCatchupLoop env m env.state_sync_infos [] with
  | mk m2 r2 =>
    obtain ⟨effs2, out⟩ := r2
    rw [hr] at hmem2
    cases out with
    | ok blocks =>
      dsimp only
      rw [List.mem_append]
      exact Or.inl hmem2
    | err => exact hmem2
    | panicked => exact hmem2

/-- Witness for C8 (amended): two pending boundaries whose drivers both
report `Unchanged`; the second one's driver is run in the same pass. -/
theorem run_catchup_services_all_witness :
    SyncEffect.runDriver 2 ∈
      (catchup_pass
        ⟨[(1, [0]), (2, [0])], fun _ tm => some (.Unchanged, tm),
          fun _ => some ([], [], []), some 0⟩
        (fun _ => none)).2.1 :=
  run_catchup_services_all
    ⟨[(1, [0]), (2, [0])], fun _ tm => some (.Unchanged, tm),
      fun _ => some ([], [], []), some 0⟩
    (fun _ => none)
    (fun h tm => ⟨tm, Or.inl rfl⟩)
    2 [0] (by decide)

/-- Counterexample for C8 as stated: with two pending boundaries where
the first driver reports `Completed`, the pass returns from inside the
loop — the trace shows the completion effects for anchor 1 and NO driver
run for anchor 2, although (2, {0}) is among the reported boundaries. -/
theorem run_catchup_early_return_on_completed :
    ((2 : Nat), [(0 : Nat)]) ∈
      ([(1, [0]), (2, [0])] : List (Nat × List Nat)) ∧
    (catchup_pass
        ⟨[(1, [0]), (2, [0])],
          fun h tm => some (if h = 1 then .Completed else .Unchanged, tm),
          fun _ => some ([], [], []), some 0⟩
        (fun _ => none)).2.1 =
      [.runDriver 1, .sendChallenges [], .requestChunks [] 0,
        .processAcceptedBlocks []] ∧
    SyncEffect.runDriver 2 ∉
      (catchup_pass
        ⟨[(1, [0]), (2, [0])],
          fun h tm => some (if h = 1 then .Completed else .Unchanged, tm),
          fun _ => some ([], [], []), some 0⟩
        (fun _ => none)).2.1 :=
  ⟨by decide, rfl, by decide⟩

/-- C10: the catchup path asserts `!fetch_block`: a driver returning
`Changed(true)` trips the assertion — the pass aborts right after that
driver run, a programming-error condition — and no catchup pass ever
emits a block request; by contrast the main path's `Changed(true)` arm
requests the anchor header's predecessor and the anchor itself from the
best peer (and requests nothing on `Changed(false)`). -/
theorem catchup_changed_true_asserts (env : CatchupEnv) (m : CatchupMap) :
    (∀ e ∈ (catchup_pass env m).2.1, e.isBlockRequest = false) ∧
    (∀ (sync_hash : Nat) (shards : List Nat) (rest : List (Nat × List Nat))
        (effs : List SyncEffect) (m2 : CatchupMap) (tm2 : TrackerMap),
      env.driver_run sync_hash ((m2 sync_hash).getD (fun _ => none)) =
        some (.Changed true, tm2) →
      runCatchupLoop env m2 ((sync_hash, shards) :: rest) effs =
        (setCatchup m2 sync_hash tm2, effs ++ [.runDriver sync_hash], .panicked)) ∧
    (∀ (cenv : SyncChangedEnv) (sh2 : Nat) (nss : TrackerMap) (peer prev hhash : Nat),
      cenv.peer = some peer → cenv.get_block_header sh2 = some (prev, hhash) →
      cenv.block_exists prev = some false → cenv.block_exists hhash = some false →
      (syncOnChanged cenv sh2 nss true).2 =
        [.blockRequest prev peer, .blockRequest hhash peer] ∧
      (syncOnChanged cenv sh2 nss false).2 = []) := by
  refine ⟨?_, ?_, ?_⟩
  · intro e he
    unfold catchup_pass run_catchup at he
    cases hr : runCatchupLoop env m env.state_sync_infos [] with
    | mk m2 r2 =>
      obtain ⟨effs2, out⟩ := r2
      rw [hr] at he
      have hall := runCatchupLoop_no_block_request env env.state_sync_infos m []
        (by intro e2 he2; cases he2)
      rw [hr] at hall
      cases out with
      | ok blocks =>
        dsimp only at he
        rw [List.mem_append] at he
        rcases he with he | he
        · exact hall e he
        · rw [List.mem_singleton] at he
          subst he
          rfl
      | err => exact hall e he
      | panicked => exact hall e he
  · intro sync_hash shards rest effs m2 tm2 hdrv
    simp only [runCatchupLoop, hdrv]
    rw [if_pos trivial]
  · intro cenv sh2 nss peer prev hhash h1 h2 h3 h4
    constructor
    · simp only [syncOnChanged, request_block_by_hash, h1, h2, h3, h4]
      rfl
    · rfl

/-- Witness for C10: a head entry whose driver reports `Changed(true)`
makes the pass panic with no block request in the trace, while the main
path's `Changed(true)` arm requests both blocks. -/
theorem catchup_changed_true_asserts_witness :
    runCatchupLoop
        ⟨[(1, [0])], fun _ tm => some (.Changed true, tm),
          fun _ => some ([], [], []), some 0⟩
        (fun _ => none) [(1, [0])] [] =
      (setCatchup (fun _ => none) 1 (fun _ => none),
        [.runDriver 1], .panicked) ∧
    (syncOnChanged ⟨some 9, fun _ => some (3, 4), fun _ => some false⟩ 4
        (fun _ => none) true).2 =
      [.blockRequest 3 9, .blockRequest 4 9] :=
  ⟨by
    have h := (catchup_changed_true_asserts
      ⟨[(1, [0])], fun _ tm => some (.Changed true, tm),
        fun _ => some ([], [], []), some 0⟩ (fun _ => none)).2.1
      1 [0] [] [] (fun _ => none) (fun _ => none) rfl
    simpa using h,
   ((catchup_changed_true_asserts
      ⟨[(1, [0])], fun _ tm => some (.Changed true, tm),
        fun _ => some ([], [], []), some 0⟩ (fun _ => none)).2.2
      ⟨some 9, fun _ => some (3, 4), fun _ => some false⟩ 4
      (fun _ => none) 9 3 4 rfl rfl rfl rfl).1⟩

/-- C3 (amended): when a catchup pass returns `Ok`, its trace forwards
the completed episode's challenges FIRST, then issues ONE consolidated
chunk request covering the union (flattening) of the missing-chunk lists
and referenced to the node's current header-head, and the accepted
blocks are forwarded LAST — only after `run_catchup` returns, by the
`catchup` caller; unlike the main-sync completion path, which forwards
accepted blocks before the chunk request. -/
theorem catchup_completed_forwarding (env : CatchupEnv) (m m2 : CatchupMap)
    (effs : List SyncEffect) (acc : List Nat)
    (hrun : run_catchup env m = (m2, effs, .ok acc)) :
    ((catchup_pass env m).2.1 = effs ++ [.processAcceptedBlocks acc] ∧
      (catchup_pass env m).2.2 = false) ∧
    ((acc = [] ∧ ∃ ds : List Nat, effs = ds.map SyncEffect.runDriver) ∨
      (∃ (ds : List Nat) (h hh : Nat) (missing : List (List Nat))
          (challenges : List Nat),
        env.catchup_blocks h = some (acc, missing, challenges) ∧
        env.header_head = some hh ∧
        effs = ds.map SyncEffect.runDriver ++
          [.sendChallenges challenges, .requestChunks missing.flatten hh])) ∧
    (∀ (senv : SyncCompletedEnv) (accM : List Nat) (missing2 : List (List Nat))
        (challenges2 : List Nat) (hh2 : Nat),
      senv.reset_heads = some (accM, missing2, challenges2) →
      senv.header_head = some hh2 →
      syncOnCompleted senv =
        ([.sendChallenges challenges2, .processAcceptedBlocks accM,
          .requestChunks missing2.flatten hh2], .ok, some (.BodySync 0 0))) := by
  refine ⟨⟨?_, ?_⟩, ?_, ?_⟩
  · unfold catchup_pass
    rw [hrun]
  · unfold catchup_pass
    rw [hrun]
  · have hshape := runCatchupLoop_ok_shape env env.state_sync_infos m [] m2 effs acc hrun
    simpa using hshape
  · intro senv accM missing2 challenges2 hh2 h1 h2
    simp only [syncOnCompleted, h1, h2]

/-- Witness for C3 (amended): one boundary whose driver completes with
accepted blocks `[3]`, missing-chunk lists `[[5], [6]]` and challenges
`[9]`, against header-head 77: the pass trace is challenges, then one
consolidated chunk request for `[5, 6]` at 77, then the accepted blocks. -/
theorem catchup_completed_forwarding_witness :
    (catchup_pass
        ⟨[(1, [0])], fun _ tm => some (.Completed, tm),
          fun _ => some ([3], [[5], [6]], [9]), some 77⟩
        (fun _ => none)).2.1 =
      [.runDriver 1, .sendChallenges [9], .requestChunks [5, 6] 77,
        .processAcceptedBlocks [3]] :=
  (catchup_completed_forwarding
    ⟨[(1, [0])], fun _ tm => some (.Completed, tm),
      fun _ => some ([3], [[5], [6]], [9]), some 77⟩
    (fun _ => none) _ _ _ rfl).1.1

/-- Counterexample for C3 as stated: on the same completion data the
catchup pass emits the chunk request BEFORE forwarding the accepted
blocks, while the main-sync completion path (§4.1.2) forwards accepted
blocks before the chunk request — the catchup trace is not the
challenges-accepted-chunks order the claim demands. -/
theorem catchup_forwarding_order_differs :
    (catchup_pass
        ⟨[(1, [0])], fun _ tm => some (.Completed, tm),
          fun _ => some ([3], [[5], [6]], [9]), some 77⟩
        (fun _ => none)).2.1 =
      [.runDriver 1, .sendChallenges [9], .requestChunks [5, 6] 77,
        .processAcceptedBlocks [3]] ∧
    (syncOnCompleted ⟨some ([3], [[5], [6]], [9]), some 77⟩).1 =
      [.sendChallenges [9], .processAcceptedBlocks [3],
        .requestChunks [5, 6] 77] ∧
    (catchup_pass
        ⟨[(1, [0])], fun _ tm => some (.Completed, tm),
          fun _ => some ([3], [[5], [6]], [9]), some 77⟩
        (fun _ => none)).2.1 ≠
      [.runDriver 1, .sendChallenges [9], .processAcceptedBlocks [3],
        .requestChunks [5, 6] 77] :=
  ⟨rfl, rfl, by decide⟩

/-- C4 (amended): a catchup entry is created lazily when its anchor is
first serviced, but it is NOT removed when its driver reports
`Completed`: `run_catchup` never removes keys from the catchup map —
every key present before a pass is still present after it, and the
serviced head entry is present right after its step — so a later
state-response carrying that anchor hash still finds the entry in the
catchup lookup. -/
theorem catchup_entries_persist (env : CatchupEnv) (m : CatchupMap) (h : Nat) :
    ((m h).isSome = true → (((catchup_pass env m).1) h).isSome = true) ∧
    (∀ (shards : List Nat) (rest : List (Nat × List Nat)) (effs : List SyncEffect),
      (((runCatchupLoop env m ((h, shards) :: rest) effs).1) h).isSome = true) := by
  constructor
  · intro hm
    have hk := runCatchupLoop_keys_persist env env.state_sync_infos m [] h hm
    unfold catchup_pass run_catchup
    cases hr : runCatchupLoop env m env.state_sync_infos [] with
    | mk mm r2 =>
      obtain ⟨effs2, out⟩ := r2
      rw [hr] at hk
      cases out <;> exact hk
  · intro shards rest effs
    have hset : ∀ (v : TrackerMap), ((setCatchup m h v) h).isSome = true := by
      intro v
      unfold setCatchup
      rw [if_pos rfl]
      rfl
    simp only [runCatchupLoop]
    cases hdr : env.driver_run h ((m h).getD (fun _ => none)) with
    | none => exact hset _
    | some rt =>
      obtain ⟨res, trackers2⟩ := rt
      dsimp only
      cases res with
      | Unchanged => exact runCatchupLoop_keys_persist env rest _ _ h (hset _)
      | Changed fb =>
        cases fb with
        | true => simpa using hset _
        | false =>
          simp only [Bool.false_eq_true, if_false]
          exact runCatchupLoop_keys_persist env rest _ _ h (hset _)
      | Completed =>
        cases hcb : env.catchup_blocks h with
        | none => exact hset _
        | some tri =>
          obtain ⟨accepted, bmc, challenges⟩ := tri
          dsimp only
          cases hhh : env.header_head with
          | none => exact hset _
          | some hh => exact hset _

/-- Witness for C4 (amended): a key present before the pass is still
present after the pass. -/
theorem catchup_entries_persist_witness :
    ((catchup_pass
        ⟨[(7, [0])], fun _ tm => some (.Completed, tm),
          fun _ => some ([], [], []), some 0⟩
        (setCatchup (fun _ => none) 7 (fun _ => none))).1 7).isSome = true :=
  (catchup_entries_persist
    ⟨[(7, [0])], fun _ tm => some (.Completed, tm),
      fun _ => some ([], [], []), some 0⟩
    (setCatchup (fun _ => none) 7 (fun _ => none)) 7).1 rfl

/-- Counterexample for C4 as stated: the driver for anchor 7 reports
`Completed` (the trace shows the completion effects), yet the catchup
map still contains the entry for 7 afterwards, and a later
state-response for `(7, shard 0)` finds the tracker in the catchup
lookup and applies a part to chain storage — nothing is discarded. -/
theorem catchup_entry_not_removed :
    (catchup_pass
        ⟨[(7, [0])],
          fun _ _ => some (.Completed,
            fun sh => if sh = 0 then
              some ⟨[⟨false, false⟩], .StateDownloadParts⟩ else none),
          fun _ => some ([], [], []), some 0⟩
        (fun _ => none)).2.1 =
      [.runDriver 7, .sendChallenges [], .requestChunks [] 0,
        .processAcceptedBlocks []] ∧
    (((catchup_pass
        ⟨[(7, [0])],
          fun _ _ => some (.Completed,
            fun sh => if sh = 0 then
              some ⟨[⟨false, false⟩], .StateDownloadParts⟩ else none),
          fun _ => some ([], [], []), some 0⟩
        (fun _ => none)).1) 7).isSome = true ∧
    Effect.setStatePart 0 7 0 1 [] true ∈
      (handleStateResponse
        ⟨.NoSync,
          (catchup_pass
            ⟨[(7, [0])],
              fun _ _ => some (.Completed,
                fun sh => if sh = 0 then
                  some ⟨[⟨false, false⟩], .StateDownloadParts⟩ else none),
              fun _ => some ([], [], []), some 0⟩
            (fun _ => none)).1⟩
        0 7 ⟨none, some (0, [])⟩
        ⟨fun _ _ _ => true, fun _ _ _ _ _ => true⟩).effects :=
  ⟨rfl, rfl, by decide⟩
